import Mathlib

/-!
Shallow embedding of the reactive weather application
(`weather.service.ts`, `today.component.ts`, `hourly-forecast.component.ts`)
and proofs about its forecast aggregation, chart scaling, clock computation
and reactive request pipeline.

Conventions of the embedding:
* JavaScript numbers that carry fractional data (temperatures, humidity,
  pressure, wind speed, chart values) are modelled as `ℚ`.
* Epoch timestamps (`dt`, in seconds) are modelled as `Nat`; instants in
  milliseconds (`Date.getTime()`) as `Nat` or `Int` where negative device
  offsets matter.
* `new Date(dt * 1000).toISOString().split('T')[0]` buckets a timestamp by
  its UTC calendar day; two non-negative epoch-second values yield the same
  day string iff they have the same value of `dt / 86400`, so the day key is
  modelled as `dt / 86400`.
* A JavaScript `Map` (insertion ordered) is modelled as an association list
  `List (Nat × List ForecastItem)` where a new key is appended at the end.
-/

namespace WeatherApp

/-- `main` field of a forecast list entry (OpenWeatherMap 3-hour sample). -/
structure MainData where
  temp : ℚ
  temp_max : Option ℚ
  temp_min : Option ℚ
  humidity : ℚ
  pressure : ℚ
deriving DecidableEq

/-- `weather[0]` of a sample or snapshot. -/
structure WeatherCond where
  icon : String
  description : String
deriving DecidableEq

/-- `wind` field. -/
structure Wind where
  speed : ℚ
deriving DecidableEq

/-- One entry of the forecast `list` (interface `ForecastItem`). The source
reads `item.weather[0]`; only that first element is modelled. -/
structure ForecastItem where
  dt : Nat
  main : MainData
  weather : WeatherCond
  wind : Wind
deriving DecidableEq

/-- Result of `processForecast`. -/
structure ProcessedForecast where
  daily : List ForecastItem
  hourly : List ForecastItem
deriving DecidableEq

/-- UTC calendar day of an epoch-second timestamp, the numeric counterpart of
`new Date(dt * 1000).toISOString().split('T')[0]`. -/
def dayKey (dt : Nat) : Nat := dt / 86400

/-- `Math.max(...values)` for the non-empty lists this code applies it to
(the `[]` case is unreachable: day groups always hold at least one item). -/
def jsMax : List ℚ → ℚ
  | [] => 0
  | a :: l => l.foldl max a

/-- `Math.min(...values)`, same conventions as `jsMax`. -/
def jsMin : List ℚ → ℚ
  | [] => 0
  | a :: l => l.foldl min a

/-- `dailyMap.get(dateString)!.push(item)` / `dailyMap.set(dateString, [])`:
append `it` to the entry of key `k`, creating the entry at the end of the
insertion-ordered map if the key is new. -/
def insertDaily (m : List (Nat × List ForecastItem)) (k : Nat) (it : ForecastItem) :
    List (Nat × List ForecastItem) :=
  match m with
  | [] => [(k, [it])]
  | (k₀, its) :: rest =>
    if k₀ = k then (k₀, its ++ [it]) :: rest else (k₀, its) :: insertDaily rest k it

/-- The grouping loop of `processForecast` (part_001 variant): walk the list
and group every item under its UTC day key, preserving insertion order. -/
def buildDailyMap (m : List (Nat × List ForecastItem)) :
    List ForecastItem → List (Nat × List ForecastItem)
  | [] => m
  | it :: l => buildDailyMap (insertDaily m (dayKey it.dt) it) l

/-- The hourly collection of the same loop: push an item when
`date.getTime() > now.getTime() && hourlyCount < 8`. -/
def collectHourly (nowMs : Nat) : List ForecastItem → Nat → List ForecastItem
  | [], _ => []
  | it :: l, count =>
    if it.dt * 1000 > nowMs ∧ count < 8 then it :: collectHourly nowMs l (count + 1)
    else collectHourly nowMs l count

/-- The per-day bucket of `processForecast`: spread the first item of the day
and overwrite `main.temp_max` / `main.temp_min` with the computed extremes
(`{...baseItem, main: {...baseItem.main, temp_max: maxTemp, temp_min: minTemp}}`).
The `[]` case is unreachable: map entries are non-empty by construction. -/
def mkBucket : List ForecastItem → ForecastItem
  | [] =>
    { dt := 0
      main := { temp := 0, temp_max := none, temp_min := none, humidity := 0, pressure := 0 }
      weather := { icon := "", description := "" }
      wind := { speed := 0 } }
  | base :: rest =>
    let temps := (base :: rest).map (fun it => it.main.temp)
    { base with
      main := { base.main with temp_max := some (jsMax temps), temp_min := some (jsMin temps) } }

/-- `processForecast` of `src/unnamed/part_001` (the min/max overlay variant):
group by UTC day, take the first five days in insertion order, build each
day's bucket from all of that day's samples, and collect at most eight
samples strictly later than `now`. `nowMs` is `now.getTime()`. -/
def processForecast (list : List ForecastItem) (nowMs : Nat) : ProcessedForecast :=
  let dailyMap := buildDailyMap [] list
  { daily := (dailyMap.take 5).map (fun p => mkBucket p.2)
    hourly := collectHourly nowMs list 0 }

/-- `dailyMap.get(k)`, with `[]` for an absent key. -/
def lookupG : List (Nat × List ForecastItem) → Nat → List ForecastItem
  | [], _ => []
  | (k₀, its) :: m, k => if k₀ = k then its else lookupG m k

/-- The insertion-ordered key list of the map. -/
def keysOf (m : List (Nat × List ForecastItem)) : List Nat := m.map Prod.fst

/-- The four values of `selectedDataType`. -/
inductive DataType where
  | temp
  | humidity
  | wind
  | pressure
deriving DecidableEq

/-- One point fed to the hourly SVG graph. -/
structure GraphDataPoint where
  time : Nat
  value : ℚ
  icon : Option String
deriving DecidableEq

/-- Return type of `getMinMaxValues`. -/
structure MinMaxResult where
  min : ℚ
  max : ℚ
  unit : String
  factor : ℚ
deriving DecidableEq

/-- `getMinMaxValues` of `hourly-forecast.component.ts` (identical in
`part_001`): raw min/max padded by a metric-specific policy, with a final
`if (max <= min) max = min + 10` fallback. `selectedDataType` is the
component field, taken here as a parameter. -/
def getMinMaxValues (selectedDataType : DataType) (data : List GraphDataPoint) : MinMaxResult :=
  match data.map (fun p => p.value) with
  | [] => { min := 0, max := 10, unit := "", factor := 1 }
  | v :: vs =>
    let min₀ := jsMin (v :: vs)
    let max₀ := jsMax (v :: vs)
    let hasRange := max₀ > min₀
    let padded : ℚ × ℚ × String :=
      match selectedDataType with
      | .temp => (min₀ - 3/2, max₀ + 3/2, "°C")
      | .humidity =>
        if hasRange then (max (min₀ - 5) 0, min (max₀ + 5) 100, "%")
        else (max (min₀ - 5) 0, min (max₀ + 5) 100, "%")
      | .wind =>
        if hasRange then (max (min₀ - 1) 0, max₀ + 2, " km/h")
        else (max (min₀ - 2) 0, max₀ + 2, " km/h")
      | .pressure =>
        if hasRange then (min₀ - 3, max₀ + 3, " hPa")
        else (min₀ - 3, max₀ + 3, " hPa")
    let finalMax := if padded.2.1 ≤ padded.1 then padded.1 + 10 else padded.2.1
    { min := padded.1, max := finalMax, unit := padded.2.2, factor := 1 }

/-- `coord` of a weather response. -/
structure Coord where
  lat : ℚ
  lon : ℚ
deriving DecidableEq

/-- `sys` of a weather response. -/
structure SysData where
  country : String
  sunrise : Nat
  sunset : Nat
deriving DecidableEq

/-- `main` of a weather response. -/
structure WMain where
  temp : ℚ
  feels_like : ℚ
  humidity : ℚ
  pressure : ℚ
deriving DecidableEq

/-- The `WeatherData` interface of `weather.service.ts`. `timezone` is the
UTC offset in seconds (an `Int`: western offsets are negative). -/
structure WeatherData where
  name : String
  sys : SysData
  main : WMain
  weather : WeatherCond
  wind : Wind
  timezone : Int
  coord : Coord
deriving DecidableEq

/-- The `ForecastData` interface: the raw `list` of samples. -/
structure ForecastData where
  list : List ForecastItem
deriving DecidableEq

/-- `calculateCityTime` of `today.component.ts`, as epoch milliseconds:
`localTime.getTime() + localTime.getTimezoneOffset() * 60000 + timezoneOffsetSeconds * 1000`.
`nowMs` is `localTime.getTime()` and `tzOffsetMin` is
`localTime.getTimezoneOffset()` (minutes, UTC minus local). -/
def calculateCityTime (nowMs tzOffsetMin timezoneOffsetSeconds : Int) : Int :=
  let utcTime := nowMs + tzOffsetMin * 60000
  utcTime + timezoneOffsetSeconds * 1000

/-- One evaluation of the `cityTimestamp$` mapping (`today.component.ts`):
`if (weather && weather.timezone) return calculateCityTime(weather.timezone); return new Date()`.
JavaScript truthiness of the number `weather.timezone` makes the offset `0`
fall back to the plain device time, exactly like a missing snapshot. -/
def cityTimestampTick (weather : Option WeatherData) (nowMs tzOffsetMin : Int) : Int :=
  match weather with
  | some w => if w.timezone ≠ 0 then calculateCityTime nowMs tzOffsetMin w.timezone else nowMs
  | none => nowMs

/-- The two search channels of `WeatherService`: `citySearch$` and
`coordsSearch$`. Their post-acceptance pipelines in `setupReactiveStreams`
are identical, so the step relation below is parametrised by the channel. -/
inductive Channel where
  | city
  | coords
deriving DecidableEq

/-- State of `WeatherService` between event-loop turns.
`pendingCity` / `pendingCoords` hold the generation id of the inner fetch the
channel's `switchMap` is currently subscribed to (none when idle), and
`pendingForecasts` holds the ids and coordinates of forecast fetches started
by `fetchForecast` (these subscriptions are independent and are never
cancelled by `switchMap`). Generation ids model which response belongs to
which request; the code itself distinguishes requests by which inner
observable `switchMap` is still subscribed to. -/
structure SvcState where
  weather : Option WeatherData
  forecast : Option ForecastData
  loading : Bool
  pendingCity : Option Nat
  pendingCoords : Option Nat
  pendingForecasts : List (Nat × Coord)
  nextId : Nat
deriving DecidableEq

/-- The in-flight weather request of a channel. -/
def pendingOf (s : SvcState) : Channel → Option Nat
  | .city => s.pendingCity
  | .coords => s.pendingCoords

/-- Replace the in-flight weather request of a channel. -/
def setPending (s : SvcState) (ch : Channel) (v : Option Nat) : SvcState :=
  match ch with
  | .city => { s with pendingCity := v }
  | .coords => { s with pendingCoords := v }

/-- Events dispatched by the event loop to `WeatherService`:
* `accept ch` — the channel's subject pipeline (debounce/distinct/filter)
  emits a value into `switchMap`: the previous inner fetch is unsubscribed
  (its `finalize` runs), `loadingSubject.next(true)` fires and a fresh fetch
  starts;
* `weatherResp ch id r` — the HTTP response of weather fetch `id` on channel
  `ch` resolves (`some w`) or rejects (`none`, turned into `of(null)` by
  `catchError` and dropped by `filter`);
* `forecastResp id r` — the HTTP response of forecast fetch `id` resolves or
  rejects (`catchError` yields `of(null)`, and the service's
  `filter(data && data.list.length > 0)` drops empty lists). -/
inductive SvcEvent where
  | accept (ch : Channel)
  | weatherResp (ch : Channel) (id : Nat) (r : Option WeatherData)
  | forecastResp (id : Nat) (r : Option ForecastData)
deriving DecidableEq

/-- One event-loop turn of `setupReactiveStreams` / `fetchForecast`. A
`weatherResp` whose id is not the channel's pending id belongs to an inner
observable `switchMap` already unsubscribed: its callbacks never run and the
state is untouched (the result is discarded). -/
def step (s : SvcState) : SvcEvent → SvcState
  | .accept ch =>
    setPending { s with loading := true, nextId := s.nextId + 1 } ch (some s.nextId)
  | .weatherResp ch id r =>
    if pendingOf s ch = some id then
      let s₁ := setPending { s with loading := false } ch none
      match r with
      | some w =>
        { s₁ with
          weather := some w
          pendingForecasts := s₁.pendingForecasts ++ [(s₁.nextId, w.coord)]
          nextId := s₁.nextId + 1 }
      | none => s₁
    else s
  | .forecastResp id r =>
    if (s.pendingForecasts.filter (fun p => p.1 == id)) ≠ [] then
      let s₁ := { s with pendingForecasts := s.pendingForecasts.filter (fun p => p.1 != id) }
      match r with
      | some f => if f.list ≠ [] then { s₁ with forecast := some f } else s₁
      | none => s₁
    else s

/-- A sequence of event-loop turns. -/
def runEvents (s : SvcState) (evs : List SvcEvent) : SvcState := evs.foldl step s

/-- The state right after the service's constructor ran: all subjects hold
their initial values, nothing is in flight. -/
def svcInit : SvcState :=
  { weather := none
    forecast := none
    loading := false
    pendingCity := none
    pendingCoords := none
    pendingForecasts := []
    nextId := 0 }

/-- `debounceTime(500)` over a timed input sequence (times in ms,
non-decreasing): a value is emitted iff no further input arrives within
500 ms, i.e. every value whose successor arrives 500 ms or later, plus the
final value (its quiet period always elapses on a finite burst). -/
def debounceOut : List (Nat × String) → List String
  | [] => []
  | [(_, v)] => [v]
  | (t₁, v₁) :: (t₂, v₂) :: rest =>
    (if t₁ + 500 ≤ t₂ then [v₁] else []) ++ debounceOut ((t₂, v₂) :: rest)

/-- `distinctUntilChanged()`: drop a value equal to the previously emitted
one. `prev` is the last emitted value (none on a fresh subscription). -/
def distinctUC (prev : Option String) : List String → List String
  | [] => []
  | v :: rest => if prev = some v then distinctUC prev rest else v :: distinctUC (some v) rest

/-- JavaScript's `String.prototype.trim()`, modelled on the character list:
drop leading and trailing whitespace. -/
def jsTrim (s : String) : List Char :=
  ((s.data.dropWhile fun c => c.isWhitespace).reverse.dropWhile fun c =>
    c.isWhitespace).reverse

/-- The full `citySearch$` pipeline of `weather.service.ts`:
`debounceTime(500)`, `distinctUntilChanged()`, then
`filter(city => city.trim().length > 0)`. Each emission of this pipeline is
exactly one accepted search, i.e. one network fetch via `switchMap`. -/
def citySearchOut (inputs : List (Nat × String)) : List String :=
  (distinctUC none (debounceOut inputs)).filter (fun c => decide ((jsTrim c).length > 0))

/-- State of the imperative `TodayComponent` variant
(`today.component.ts`, `getWeatherByCity`). -/
structure CompState where
  cityName : String
  weather : Option WeatherData
  cityTimestampMs : Int
  alerts : List String
deriving DecidableEq

/-- The alert text of `getWeatherByCity`'s error handler. -/
def cityErrorAlert : String := "City not found or API error. Please try again."

/-- `getWeatherByCity` of `today.component.ts` applied to the settled fetch
(`some w` success, `none` error), together with whether `getForecast` was
invoked. On success the component stores the snapshot, recomputes the city
time and fetches the forecast; on error it clears `weather` and alerts. -/
def getWeatherByCityStep (s : CompState) (nowMs tzOffsetMin : Int) (resp : Option WeatherData) :
    CompState × Bool :=
  if s.cityName = "" then (s, false)
  else
    match resp with
    | some w =>
      ({ s with
          weather := some w
          cityTimestampMs := calculateCityTime nowMs tzOffsetMin w.timezone }, true)
    | none =>
      ({ s with weather := none, alerts := s.alerts ++ [cityErrorAlert] }, false)

/-- A concrete weather condition used in witnesses. -/
def wcSample : WeatherCond := { icon := "01d", description := "clear sky" }

/-- A concrete snapshot whose UTC offset is 0 (e.g. London in winter). -/
def wSampleZero : WeatherData :=
  { name := "London"
    sys := { country := "GB", sunrise := 1700000000, sunset := 1700030000 }
    main := { temp := 10, feels_like := 9, humidity := 80, pressure := 1012 }
    weather := wcSample
    wind := { speed := 3 }
    timezone := 0
    coord := { lat := 51, lon := 0 } }

/-- A concrete snapshot with a non-zero UTC offset (+9 h). -/
def wSampleTokyo : WeatherData :=
  { name := "Tokyo"
    sys := { country := "JP", sunrise := 1700000000, sunset := 1700030000 }
    main := { temp := 18, feels_like := 18, humidity := 60, pressure := 1015 }
    weather := wcSample
    wind := { speed := 2 }
    timezone := 32400
    coord := { lat := 139/4, lon := 139 } }

/-- A concrete forecast sample used in counterexamples and witnesses. -/
def mkItem (dt : Nat) (temp : ℚ) : ForecastItem :=
  { dt := dt
    main := { temp := temp, temp_max := none, temp_min := none, humidity := 50, pressure := 1000 }
    weather := wcSample
    wind := { speed := 1 } }

/-- A chronological series covering six distinct UTC days. -/
def cexList : List ForecastItem :=
  [mkItem 0 1, mkItem 86400 2, mkItem 172800 3, mkItem 259200 4, mkItem 345600 5, mkItem 432000 6]

/-- A two-sample series on a single UTC day. -/
def listW : List ForecastItem := [mkItem 0 10, mkItem 3600 18]

/-- The daily bucket the aggregation produces for `listW`. -/
def bW : ForecastItem := mkBucket [mkItem 0 10, mkItem 3600 18]

/-- A concrete non-empty forecast payload. -/
def fSample : ForecastData := { list := [mkItem 0 1] }

/-- A concrete component state with a current snapshot and a searched city. -/
def compW : CompState :=
  { cityName := "London", weather := some wSampleZero, cityTimestampMs := 0, alerts := [] }

theorem lookupG_insertDaily (m : List (Nat × List ForecastItem)) (k' : Nat)
    (it : ForecastItem) (k : Nat) :
    lookupG (insertDaily m k' it) k = lookupG m k ++ (if k' = k then [it] else []) := by
  induction m with
  | nil =>
    by_cases h : k' = k <;> simp [insertDaily, lookupG, h]
  | cons p m ih =>
    obtain ⟨k₀, its⟩ := p
    by_cases h0 : k₀ = k'
    · subst h0
      by_cases h : k₀ = k <;> simp [insertDaily, lookupG, h]
    · by_cases h : k₀ = k
      · subst h
        simp only [insertDaily, if_neg h0, lookupG, if_pos rfl]
        have : ¬ k' = k₀ := fun hc => h0 hc.symm
        simp [this]
      · simp [insertDaily, if_neg h0, lookupG, if_neg h, ih]

theorem lookupG_buildDailyMap (l : List ForecastItem) :
    ∀ (m : List (Nat × List ForecastItem)) (k : Nat),
    lookupG (buildDailyMap m l) k =
      lookupG m k ++ l.filter (fun it => decide (dayKey it.dt = k)) := by
  induction l with
  | nil => intro m k; simp [buildDailyMap]
  | cons it l ih =>
    intro m k
    rw [buildDailyMap, ih, lookupG_insertDaily]
    by_cases h : dayKey it.dt = k <;> simp [List.filter_cons, h]

theorem keysOf_insertDaily (m : List (Nat × List ForecastItem)) (k : Nat) (it : ForecastItem) :
    keysOf (insertDaily m k it) = if k ∈ keysOf m then keysOf m else keysOf m ++ [k] := by
  induction m with
  | nil => simp [insertDaily, keysOf]
  | cons p m ih =>
    obtain ⟨k₀, its⟩ := p
    by_cases h0 : k₀ = k
    · subst h0
      simp [insertDaily, keysOf]
    · have h0' : ¬ k = k₀ := fun hc => h0 hc.symm
      have hins : keysOf (insertDaily ((k₀, its) :: m) k it) =
          k₀ :: keysOf (insertDaily m k it) := by
        simp [insertDaily, if_neg h0, keysOf]
      rw [hins, ih, show keysOf ((k₀, its) :: m) = k₀ :: keysOf m from rfl]
      by_cases hm : k ∈ keysOf m
      · rw [if_pos hm, if_pos (show k ∈ k₀ :: keysOf m from List.mem_cons.mpr (Or.inr hm))]
      · rw [if_neg hm,
          if_neg (show ¬ k ∈ k₀ :: keysOf m from fun hc =>
            (List.mem_cons.mp hc).elim h0' hm)]
        simp [keysOf]

theorem nodup_keysOf_insertDaily (m : List (Nat × List ForecastItem)) (k : Nat)
    (it : ForecastItem) (h : (keysOf m).Nodup) : (keysOf (insertDaily m k it)).Nodup := by
  rw [keysOf_insertDaily]
  by_cases hm : k ∈ keysOf m
  · simpa [hm] using h
  · simp only [if_neg hm]
    simpa [List.nodup_append] using ⟨h, hm⟩

theorem nodup_keysOf_buildDailyMap (l : List ForecastItem) :
    ∀ m : List (Nat × List ForecastItem),
    (keysOf m).Nodup → (keysOf (buildDailyMap m l)).Nodup := by
  induction l with
  | nil => intro m h; simpa [buildDailyMap] using h
  | cons it l ih =>
    intro m h
    exact ih _ (nodup_keysOf_insertDaily m (dayKey it.dt) it h)

theorem lookupG_of_mem (m : List (Nat × List ForecastItem)) (p : Nat × List ForecastItem)
    (hnd : (keysOf m).Nodup) (hp : p ∈ m) : lookupG m p.1 = p.2 := by
  induction m with
  | nil => cases hp
  | cons q m ih =>
    obtain ⟨k₀, its⟩ := q
    rcases List.mem_cons.mp hp with h | h
    · subst h; simp [lookupG]
    · have hk : k₀ ≠ p.1 := by
        intro hc
        have : p.1 ∈ keysOf m := List.mem_map_of_mem Prod.fst h
        rw [← hc] at this
        exact (List.nodup_cons.mp hnd).1 this
      rw [lookupG, if_neg hk]
      exact ih (List.nodup_cons.mp hnd).2 h

theorem mem_keysOf_of_lookupG_ne (m : List (Nat × List ForecastItem)) (k : Nat)
    (h : lookupG m k ≠ []) : k ∈ keysOf m := by
  induction m with
  | nil => simp [lookupG] at h
  | cons q m ih =>
    obtain ⟨k₀, its⟩ := q
    by_cases hk : k₀ = k
    · subst hk; simp [keysOf]
    · rw [lookupG, if_neg hk] at h
      simpa [keysOf, hk] using Or.inr (ih h)

theorem mem_keysOf_buildDailyMap (l : List ForecastItem) :
    ∀ (m : List (Nat × List ForecastItem)) (k : Nat),
    k ∈ keysOf (buildDailyMap m l) → k ∈ keysOf m ∨ k ∈ l.map (fun it => dayKey it.dt) := by
  induction l with
  | nil => intro m k h; exact Or.inl h
  | cons it l ih =>
    intro m k h
    rcases ih _ k h with h' | h'
    · rw [keysOf_insertDaily] at h'
      by_cases hm : dayKey it.dt ∈ keysOf m
      · rw [if_pos hm] at h'; exact Or.inl h'
      · rw [if_neg hm] at h'
        rcases List.mem_append.mp h' with h'' | h''
        · exact Or.inl h''
        · simp only [List.mem_singleton] at h''
          subst h''
          exact Or.inr (by simp)
    · exact Or.inr (by simp [h'])

theorem keysOf_buildDailyMap_of_day (list : List ForecastItem) (k : Nat)
    (h : k ∈ list.map (fun it => dayKey it.dt)) : k ∈ keysOf (buildDailyMap [] list) := by
  obtain ⟨it, hit, hk⟩ := List.mem_map.mp h
  apply mem_keysOf_of_lookupG_ne
  rw [lookupG_buildDailyMap list [] k]
  intro hc
  have : it ∈ List.filter (fun it => decide (dayKey it.dt = k)) list :=
    List.mem_filter.mpr ⟨hit, by simpa using hk⟩
  rw [show lookupG [] k = [] from rfl, List.nil_append] at hc
  rw [hc] at this
  cases this

theorem dayKey_mono {a b : Nat} (h : a ≤ b) : dayKey a ≤ dayKey b :=
  Nat.div_le_div_right h

theorem keysOf_buildDailyMap_sorted (l : List ForecastItem) :
    ∀ m : List (Nat × List ForecastItem),
    l.Pairwise (fun a b => a.dt ≤ b.dt) →
    (keysOf m).Pairwise (· < ·) →
    (∀ k ∈ keysOf m, ∀ it ∈ l, k ≤ dayKey it.dt) →
    (keysOf (buildDailyMap m l)).Pairwise (· < ·) := by
  induction l with
  | nil => intro m _ hm _; exact hm
  | cons it l ih =>
    intro m hsort hm hle
    have hsort' : l.Pairwise (fun a b => a.dt ≤ b.dt) := (List.pairwise_cons.mp hsort).2
    have hhead : ∀ b ∈ l, it.dt ≤ b.dt := (List.pairwise_cons.mp hsort).1
    rw [buildDailyMap]
    apply ih _ hsort'
    · rw [keysOf_insertDaily]
      by_cases hmem : dayKey it.dt ∈ keysOf m
      · rw [if_pos hmem]; exact hm
      · rw [if_neg hmem]
        rw [List.pairwise_append]
        refine ⟨hm, List.pairwise_singleton _ _, ?_⟩
        intro a ha b hb
        rw [List.mem_singleton] at hb
        subst hb
        have hle' : a ≤ dayKey it.dt := hle a ha it (List.mem_cons_self it l)
        have hne : a ≠ dayKey it.dt := fun hc => hmem (hc ▸ ha)
        exact lt_of_le_of_ne hle' hne
    · intro k hk it' hit'
      rw [keysOf_insertDaily] at hk
      by_cases hmem : dayKey it.dt ∈ keysOf m
      · rw [if_pos hmem] at hk
        exact hle k hk it' (List.mem_cons_of_mem it hit')
      · rw [if_neg hmem] at hk
        rcases List.mem_append.mp hk with h | h
        · exact hle k h it' (List.mem_cons_of_mem it hit')
        · rw [List.mem_singleton] at h
          subst h
          exact dayKey_mono (hhead it' hit')

theorem keysOf_buildDailyMap_extend (l : List ForecastItem) :
    ∀ m : List (Nat × List ForecastItem),
    ∃ suf, keysOf (buildDailyMap m l) = keysOf m ++ suf := by
  induction l with
  | nil => intro m; exact ⟨[], by simp [buildDailyMap]⟩
  | cons it l ih =>
    intro m
    obtain ⟨suf, hsuf⟩ := ih (insertDaily m (dayKey it.dt) it)
    rw [buildDailyMap, hsuf, keysOf_insertDaily]
    by_cases hmem : dayKey it.dt ∈ keysOf m
    · rw [if_pos hmem]; exact ⟨suf, rfl⟩
    · rw [if_neg hmem]; exact ⟨dayKey it.dt :: suf, by simp⟩

theorem foldl_max_init_le (t : List ℚ) : ∀ a : ℚ, a ≤ t.foldl max a := by
  induction t with
  | nil => intro a; exact le_refl a
  | cons b t ih =>
    intro a
    rw [List.foldl_cons]
    exact le_trans (le_max_left a b) (ih (max a b))

theorem mem_le_foldl_max (t : List ℚ) : ∀ (a x : ℚ), x ∈ t → x ≤ t.foldl max a := by
  induction t with
  | nil => intro a x hx; cases hx
  | cons b t ih =>
    intro a x hx
    rw [List.foldl_cons]
    rcases List.mem_cons.mp hx with h | h
    · subst h
      exact le_trans (le_max_right a x) (foldl_max_init_le t (max a x))
    · exact ih (max a b) x h

theorem le_jsMax_of_mem {x : ℚ} {l : List ℚ} (hl : l ≠ []) (hx : x ∈ l) : x ≤ jsMax l := by
  cases l with
  | nil => exact absurd rfl hl
  | cons a t =>
    rw [jsMax]
    rcases List.mem_cons.mp hx with h | h
    · subst h; exact foldl_max_init_le t x
    · exact mem_le_foldl_max t a x h

theorem le_foldl_min_init (t : List ℚ) : ∀ a : ℚ, t.foldl min a ≤ a := by
  induction t with
  | nil => intro a; exact le_refl a
  | cons b t ih =>
    intro a
    rw [List.foldl_cons]
    exact le_trans (ih (min a b)) (min_le_left a b)

theorem foldl_min_le_mem (t : List ℚ) : ∀ (a x : ℚ), x ∈ t → t.foldl min a ≤ x := by
  induction t with
  | nil => intro a x hx; cases hx
  | cons b t ih =>
    intro a x hx
    rw [List.foldl_cons]
    rcases List.mem_cons.mp hx with h | h
    · subst h
      exact le_trans (le_foldl_min_init t (min a x)) (min_le_right a x)
    · exact ih (min a b) x h

theorem jsMin_le_of_mem {x : ℚ} {l : List ℚ} (hl : l ≠ []) (hx : x ∈ l) : jsMin l ≤ x := by
  cases l with
  | nil => exact absurd rfl hl
  | cons a t =>
    rw [jsMin]
    rcases List.mem_cons.mp hx with h | h
    · subst h; exact le_foldl_min_init t x
    · exact foldl_min_le_mem t a x h

theorem buildDailyMap_entry (list : List ForecastItem) (p : Nat × List ForecastItem)
    (hp : p ∈ buildDailyMap [] list) :
    p.2 = list.filter (fun it => decide (dayKey it.dt = p.1)) ∧ p.2 ≠ [] := by
  have hnd : (keysOf (buildDailyMap [] list)).Nodup :=
    nodup_keysOf_buildDailyMap list [] (by simp [keysOf])
  have h1 : lookupG (buildDailyMap [] list) p.1 = p.2 :=
    lookupG_of_mem _ p hnd hp
  have h2 := lookupG_buildDailyMap list [] p.1
  rw [show lookupG [] p.1 = [] from rfl, List.nil_append] at h2
  have hfil : p.2 = list.filter (fun it => decide (dayKey it.dt = p.1)) := by
    rw [← h1, h2]
  refine ⟨hfil, ?_⟩
  have hk : p.1 ∈ keysOf (buildDailyMap [] list) := List.mem_map_of_mem Prod.fst hp
  rcases mem_keysOf_buildDailyMap list [] p.1 hk with h | h
  · simp [keysOf] at h
  · obtain ⟨it, hit, hd⟩ := List.mem_map.mp h
    intro hc
    rw [hfil] at hc
    have hmem : it ∈ list.filter (fun it => decide (dayKey it.dt = p.1)) :=
      List.mem_filter.mpr ⟨hit, by simpa using hd⟩
    rw [hc] at hmem
    cases hmem

theorem daily_mem_spec (list : List ForecastItem) (nowMs : Nat) (b : ForecastItem)
    (hb : b ∈ (processForecast list nowMs).daily) :
    ∃ first rest,
      list.filter (fun it => decide (dayKey it.dt = dayKey b.dt)) = first :: rest ∧
      b = { first with
        main := { first.main with
          temp_max := some (jsMax ((first :: rest).map (fun it => it.main.temp)))
          temp_min := some (jsMin ((first :: rest).map (fun it => it.main.temp))) } } := by
  simp only [processForecast] at hb
  obtain ⟨p, hp5, hbp⟩ := List.mem_map.mp hb
  have hpm : p ∈ buildDailyMap [] list := List.take_subset 5 _ hp5
  obtain ⟨hfil, hne⟩ := buildDailyMap_entry list p hpm
  cases hq : p.2 with
  | nil => exact absurd hq hne
  | cons first rest =>
    have hb' : b = mkBucket (first :: rest) := by rw [← hbp, hq]
    have hfl : list.filter (fun it => decide (dayKey it.dt = p.1)) = first :: rest := by
      rw [← hfil, hq]
    have hfmem : first ∈ list.filter (fun it => decide (dayKey it.dt = p.1)) := by
      rw [hfl]; exact List.mem_cons_self first rest
    have hday : dayKey first.dt = p.1 := of_decide_eq_true (List.mem_filter.mp hfmem).2
    have hbdt : b.dt = first.dt := by rw [hb']; rfl
    have hkey : dayKey b.dt = p.1 := by rw [hbdt, hday]
    refine ⟨first, rest, ?_, ?_⟩
    · rw [hkey]; exact hfl
    · rw [hb']; rfl

theorem daily_map_dayKey (list : List ForecastItem) (nowMs : Nat) :
    ((processForecast list nowMs).daily).map (fun b => dayKey b.dt) =
      (keysOf (buildDailyMap [] list)).take 5 := by
  simp only [processForecast]
  rw [List.map_map, keysOf, ← List.map_take]
  apply List.map_congr_left
  intro p hp
  have hpm : p ∈ buildDailyMap [] list := List.take_subset 5 _ hp
  obtain ⟨hfil, hne⟩ := buildDailyMap_entry list p hpm
  cases hq : p.2 with
  | nil => exact absurd hq hne
  | cons first rest =>
    have hfl : list.filter (fun it => decide (dayKey it.dt = p.1)) = first :: rest := by
      rw [← hfil, hq]
    have hfmem : first ∈ list.filter (fun it => decide (dayKey it.dt = p.1)) := by
      rw [hfl]; exact List.mem_cons_self first rest
    have hday : dayKey first.dt = p.1 := of_decide_eq_true (List.mem_filter.mp hfmem).2
    show dayKey (mkBucket p.2).dt = p.1
    rw [hq]
    exact hday

theorem collectHourly_eq (nowMs : Nat) (l : List ForecastItem) :
    ∀ count : Nat,
    collectHourly nowMs l count =
      (l.filter (fun it => decide (it.dt * 1000 > nowMs))).take (8 - count) := by
  induction l with
  | nil => intro count; simp [collectHourly]
  | cons it l ih =>
    intro count
    by_cases hf : it.dt * 1000 > nowMs
    · have hfc : (it :: l).filter (fun it => decide (it.dt * 1000 > nowMs)) =
          it :: l.filter (fun it => decide (it.dt * 1000 > nowMs)) := by
        simp [List.filter_cons, hf]
      by_cases hc : count < 8
      · have h8 : 8 - count = (8 - (count + 1)) + 1 := by omega
        rw [collectHourly, if_pos ⟨hf, hc⟩, ih (count + 1), hfc, h8, List.take_succ_cons]
      · have h8 : 8 - count = 0 := by omega
        rw [collectHourly, if_neg (fun h => hc h.2), ih count, hfc, h8]
        simp
    · have hfc : (it :: l).filter (fun it => decide (it.dt * 1000 > nowMs)) =
          l.filter (fun it => decide (it.dt * 1000 > nowMs)) := by
        simp [List.filter_cons, hf]
      rw [collectHourly, if_neg (fun h => hf h.1), ih count, hfc]

/-- C5: for every point list and every metric kind, `getMinMaxValues` returns
`max` strictly greater than `min`; an empty point list yields
`{min: 0, max: 10}` (with empty unit and factor 1). -/
theorem c5_scale_max_gt_min (dataType : DataType) (data : List GraphDataPoint) :
    (getMinMaxValues dataType data).min < (getMinMaxValues dataType data).max ∧
    getMinMaxValues dataType [] = { min := 0, max := 10, unit := "", factor := 1 } := by
  constructor
  · cases data with
    | nil => norm_num [getMinMaxValues]
    | cons v vs =>
      cases dataType <;>
        simp only [getMinMaxValues, List.map_cons] <;>
        split_ifs <;>
        (try dsimp only at *) <;>
        (try push_neg at *) <;>
        linarith
  · rfl

/-- C9 counterexample: a snapshot with UTC offset 0 is current, yet the
displayed time is the plain device-local instant (here device time 0 with a
device offset of 60 min), not the city-time formula's value 3600000 — the
fallback fires although a snapshot is current, refuting "falls back exactly
when no snapshot is current". -/
theorem c9_fallback_counterexample :
    cityTimestampTick (some wSampleZero) 0 60 = 0 ∧
    calculateCityTime 0 60 wSampleZero.timezone = 3600000 ∧
    (0 : Int) ≠ 3600000 := by
  refine ⟨rfl, by decide, by decide⟩

/-- C9 (amended): on every 1-second tick, when a snapshot with a non-zero
`utcOffsetSeconds` is current the displayed city time is the device-local
instant plus the device's own UTC offset plus `utcOffsetSeconds`; the
displayed time is the plain device-local instant exactly when no snapshot is
current or the current snapshot's offset is 0 (the code treats offset 0 as
falsy). -/
theorem c9_city_time (w : WeatherData) (nowMs tzOffsetMin : Int) :
    (w.timezone ≠ 0 →
      cityTimestampTick (some w) nowMs tzOffsetMin =
        nowMs + tzOffsetMin * 60000 + w.timezone * 1000) ∧
    (w.timezone = 0 → cityTimestampTick (some w) nowMs tzOffsetMin = nowMs) ∧
    cityTimestampTick none nowMs tzOffsetMin = nowMs := by
  refine ⟨fun h => ?_, fun h => ?_, rfl⟩
  · simp [cityTimestampTick, calculateCityTime, h]
  · simp [cityTimestampTick, h]

/-- Witness for `c9_city_time` at concrete inputs. -/
theorem c9_city_time_witness :
    cityTimestampTick (some wSampleTokyo) 1000 60 =
      1000 + 60 * 60000 + wSampleTokyo.timezone * 1000 ∧
    cityTimestampTick (some wSampleZero) 1000 60 = 1000 ∧
    cityTimestampTick none 1000 60 = 1000 :=
  ⟨(c9_city_time wSampleTokyo 1000 60).1 (by decide),
   (c9_city_time wSampleZero 1000 60).2.1 rfl,
   (c9_city_time wSampleZero 1000 60).2.2⟩

/-- C4: the hourly view holds only samples strictly later than `now`, has at
most eight entries, is chronologically ascending for a chronologically
ordered input, equals the first eight future samples exactly (so fewer
future samples are returned as-is, without padding), and the empty series
yields empty daily and hourly views. -/
theorem c4_hourly_window (list : List ForecastItem) (nowMs : Nat) :
    (∀ it ∈ (processForecast list nowMs).hourly, it.dt * 1000 > nowMs) ∧
    ((processForecast list nowMs).hourly).length ≤ 8 ∧
    (list.Pairwise (fun a b => a.dt ≤ b.dt) →
      ((processForecast list nowMs).hourly).Pairwise (fun a b => a.dt ≤ b.dt)) ∧
    (processForecast list nowMs).hourly =
      (list.filter (fun it => decide (it.dt * 1000 > nowMs))).take 8 ∧
    processForecast [] nowMs = { daily := [], hourly := [] } := by
  have hch : (processForecast list nowMs).hourly =
      (list.filter (fun it => decide (it.dt * 1000 > nowMs))).take 8 := by
    show collectHourly nowMs list 0 = _
    rw [collectHourly_eq nowMs list 0]
  refine ⟨?_, ?_, ?_, hch, rfl⟩
  · intro it hit
    rw [hch] at hit
    have hmem : it ∈ list.filter (fun it => decide (it.dt * 1000 > nowMs)) :=
      List.take_subset 8 _ hit
    exact of_decide_eq_true (List.mem_filter.mp hmem).2
  · rw [hch, List.length_take]
    exact min_le_left 8 _
  · intro hs
    rw [hch]
    have hsub : List.Sublist
        ((list.filter (fun it => decide (it.dt * 1000 > nowMs))).take 8) list :=
      (List.take_sublist 8 _).trans (List.filter_sublist list)
    exact List.Pairwise.sublist hsub hs

/-- Witness for `c4_hourly_window`: the ascending-output conjunct at a
concrete chronological series. -/
theorem c4_hourly_window_witness :
    ((processForecast cexList 0).hourly).Pairwise (fun a b => a.dt ≤ b.dt) :=
  (c4_hourly_window cexList 0).2.2.1 (by decide)

/-- C3: every daily bucket's `temp_max` dominates and `temp_min` is dominated
by the temperature of every input sample of that bucket's UTC day, and the
bucket is that day's first sample in input order overlaid with exactly this
min/max pair. -/
theorem c3_bucket_minmax (list : List ForecastItem) (nowMs : Nat) (b : ForecastItem)
    (hb : b ∈ (processForecast list nowMs).daily) :
    ∃ M mn, b.main.temp_max = some M ∧ b.main.temp_min = some mn ∧
      (∀ it ∈ list, dayKey it.dt = dayKey b.dt → it.main.temp ≤ M ∧ mn ≤ it.main.temp) ∧
      ∃ first,
        (list.filter (fun it => decide (dayKey it.dt = dayKey b.dt))).head? = some first ∧
        b = { first with
          main := { first.main with temp_max := some M, temp_min := some mn } } := by
  obtain ⟨first, rest, hfl, hb'⟩ := daily_mem_spec list nowMs b hb
  refine ⟨jsMax ((first :: rest).map (fun it => it.main.temp)),
          jsMin ((first :: rest).map (fun it => it.main.temp)), ?_, ?_, ?_, first, ?_, hb'⟩
  · rw [hb']
  · rw [hb']
  · intro it hit hday
    have hmem : it ∈ first :: rest := by
      rw [← hfl]
      exact List.mem_filter.mpr ⟨hit, by simpa using hday⟩
    have htm : it.main.temp ∈ (first :: rest).map (fun it => it.main.temp) :=
      List.mem_map_of_mem _ hmem
    exact ⟨le_jsMax_of_mem (by simp) htm, jsMin_le_of_mem (by simp) htm⟩
  · rw [hfl]
    rfl

/-- Witness for `c3_bucket_minmax` at the concrete one-day series `listW`. -/
theorem c3_bucket_minmax_witness :
    ∃ M mn, bW.main.temp_max = some M ∧ bW.main.temp_min = some mn ∧
      (∀ it ∈ listW, dayKey it.dt = dayKey bW.dt → it.main.temp ≤ M ∧ mn ≤ it.main.temp) ∧
      ∃ first,
        (listW.filter (fun it => decide (dayKey it.dt = dayKey bW.dt))).head? = some first ∧
        bW = { first with
          main := { first.main with temp_max := some M, temp_min := some mn } } :=
  c3_bucket_minmax listW 0 bW (by decide)

/-- C10: every field of a daily bucket other than `main.temp_max` and
`main.temp_min` (in particular `dt`, `main.temp`, `main.humidity`,
`main.pressure`, the weather condition and the wind) is taken unchanged from
the day's first sample in input order; only `temp_max`/`temp_min` are newly
computed, as the extremes over the day's samples. -/
theorem c10_representative_frame (list : List ForecastItem) (nowMs : Nat) (b : ForecastItem)
    (hb : b ∈ (processForecast list nowMs).daily) :
    ∃ first,
      (list.filter (fun it => decide (dayKey it.dt = dayKey b.dt))).head? = some first ∧
      b.dt = first.dt ∧ b.weather = first.weather ∧ b.wind = first.wind ∧
      b.main.temp = first.main.temp ∧ b.main.humidity = first.main.humidity ∧
      b.main.pressure = first.main.pressure ∧
      b.main.temp_max =
        some (jsMax ((list.filter (fun it => decide (dayKey it.dt = dayKey b.dt))).map
          (fun it => it.main.temp))) ∧
      b.main.temp_min =
        some (jsMin ((list.filter (fun it => decide (dayKey it.dt = dayKey b.dt))).map
          (fun it => it.main.temp))) := by
  obtain ⟨first, rest, hfl, hb'⟩ := daily_mem_spec list nowMs b hb
  rw [hfl]
  refine ⟨first, rfl, ?_, ?_, ?_, ?_, ?_, ?_, ?_, ?_⟩ <;> rw [hb']

/-- Witness for `c10_representative_frame` at the concrete series `listW`. -/
theorem c10_representative_frame_witness :
    ∃ first,
      (listW.filter (fun it => decide (dayKey it.dt = dayKey bW.dt))).head? = some first ∧
      bW.dt = first.dt ∧ bW.weather = first.weather ∧ bW.wind = first.wind ∧
      bW.main.temp = first.main.temp ∧ bW.main.humidity = first.main.humidity ∧
      bW.main.pressure = first.main.pressure ∧
      bW.main.temp_max =
        some (jsMax ((listW.filter (fun it => decide (dayKey it.dt = dayKey bW.dt))).map
          (fun it => it.main.temp))) ∧
      bW.main.temp_min =
        some (jsMin ((listW.filter (fun it => decide (dayKey it.dt = dayKey bW.dt))).map
          (fun it => it.main.temp))) :=
  c10_representative_frame listW 0 bW (by decide)

/-- C2 counterexample: a chronological series covering six distinct UTC days
(days 0–5). Day 5 appears in the series, yet the produced daily view has the
buckets of days 0–4 only — so the daily view does NOT contain one bucket per
distinct UTC calendar day appearing in the series; the sixth day is cut off
by `.slice(0, 5)`. -/
theorem c2_daily_counterexample :
    cexList.Pairwise (fun a b => a.dt ≤ b.dt) ∧
    (∃ it ∈ cexList, dayKey it.dt = 5) ∧
    ((processForecast cexList 0).daily).map (fun b => dayKey b.dt) = [0, 1, 2, 3, 4] ∧
    ¬ ∃ b ∈ (processForecast cexList 0).daily, dayKey b.dt = 5 := by
  decide

/-- C2 (amended): for a chronologically ordered series the daily view has
length at most 5; its buckets' UTC days are strictly ascending (so no two
buckets share a day); every bucket's day appears in the series; every day
appearing in the series either has a bucket or lies beyond the fifth
distinct day (in which case the view already holds five buckets, all of
strictly earlier days); and the first bucket's day is the earliest day
present in the series. -/
theorem c2_daily_structure (list : List ForecastItem) (nowMs : Nat)
    (hsorted : list.Pairwise (fun a b => a.dt ≤ b.dt)) :
    ((processForecast list nowMs).daily).length ≤ 5 ∧
    (((processForecast list nowMs).daily).map (fun b => dayKey b.dt)).Pairwise (· < ·) ∧
    (∀ b ∈ (processForecast list nowMs).daily, ∃ it ∈ list, dayKey it.dt = dayKey b.dt) ∧
    (∀ it ∈ list,
      (∃ b ∈ (processForecast list nowMs).daily, dayKey b.dt = dayKey it.dt) ∨
      (((processForecast list nowMs).daily).length = 5 ∧
        ∀ b ∈ (processForecast list nowMs).daily, dayKey b.dt < dayKey it.dt)) ∧
    (∀ b₀, ((processForecast list nowMs).daily).head? = some b₀ →
      ∀ it ∈ list, dayKey b₀.dt ≤ dayKey it.dt) := by
  have hkeys : (keysOf (buildDailyMap [] list)).Pairwise (· < ·) :=
    keysOf_buildDailyMap_sorted list [] hsorted (by simp [keysOf]) (by simp [keysOf])
  have hdays := daily_map_dayKey list nowMs
  have hlen : ((processForecast list nowMs).daily).length =
      ((keysOf (buildDailyMap [] list)).take 5).length := by
    rw [← hdays, List.length_map]
  refine ⟨?_, ?_, ?_, ?_, ?_⟩
  · rw [hlen, List.length_take]
    exact min_le_left 5 _
  · rw [hdays]
    exact List.Pairwise.sublist (List.take_sublist 5 _) hkeys
  · intro b hb
    have h1 : dayKey b.dt ∈ (keysOf (buildDailyMap [] list)).take 5 := by
      rw [← hdays]
      exact List.mem_map_of_mem _ hb
    have h2 : dayKey b.dt ∈ keysOf (buildDailyMap [] list) := List.take_subset 5 _ h1
    rcases mem_keysOf_buildDailyMap list [] _ h2 with h | h
    · simp [keysOf] at h
    · obtain ⟨it, hit, hd⟩ := List.mem_map.mp h
      exact ⟨it, hit, hd⟩
  · intro it hit
    have hkK : dayKey it.dt ∈ keysOf (buildDailyMap [] list) :=
      keysOf_buildDailyMap_of_day list _ (List.mem_map_of_mem _ hit)
    by_cases htk : dayKey it.dt ∈ (keysOf (buildDailyMap [] list)).take 5
    · left
      rw [← hdays] at htk
      obtain ⟨b, hb, hbe⟩ := List.mem_map.mp htk
      exact ⟨b, hb, hbe⟩
    · right
      have hsplit : (keysOf (buildDailyMap [] list)).take 5 ++
          (keysOf (buildDailyMap [] list)).drop 5 = keysOf (buildDailyMap [] list) :=
        List.take_append_drop 5 _
      have hdrop : dayKey it.dt ∈ (keysOf (buildDailyMap [] list)).drop 5 := by
        rw [← hsplit] at hkK
        exact (List.mem_append.mp hkK).resolve_left htk
      have h5 : 5 ≤ (keysOf (buildDailyMap [] list)).length := by
        by_contra hlt
        push_neg at hlt
        rw [List.drop_eq_nil_of_le (Nat.le_of_lt hlt)] at hdrop
        cases hdrop
      constructor
      · rw [hlen, List.length_take]
        exact min_eq_left h5
      · intro b hb
        have hbk : dayKey b.dt ∈ (keysOf (buildDailyMap [] list)).take 5 := by
          rw [← hdays]
          exact List.mem_map_of_mem _ hb
        have hpa := hkeys
        rw [← hsplit] at hpa
        exact (List.pairwise_append.mp hpa).2.2 _ hbk _ hdrop
  · intro b₀ hb₀ it hit
    have hkK : dayKey it.dt ∈ keysOf (buildDailyMap [] list) :=
      keysOf_buildDailyMap_of_day list _ (List.mem_map_of_mem _ hit)
    have h1 : ((keysOf (buildDailyMap [] list)).take 5).head? = some (dayKey b₀.dt) := by
      rw [← hdays, List.head?_map, hb₀]
      rfl
    cases hKc : keysOf (buildDailyMap [] list) with
    | nil =>
      rw [hKc] at hkK
      cases hkK
    | cons k ks =>
      rw [hKc] at h1 hkK hkeys
      have hk0 : k = dayKey b₀.dt := by
        simpa using h1
      rcases List.mem_cons.mp hkK with h | h
      · exact le_of_eq ((h.trans hk0).symm)
      · have hlt : k < dayKey it.dt := (List.pairwise_cons.mp hkeys).1 _ h
        rw [← hk0]
        exact le_of_lt hlt

/-- Witness for `c2_daily_structure` at the concrete chronological series
`cexList`. -/
theorem c2_daily_structure_witness :
    ((processForecast cexList 0).daily).length ≤ 5 :=
  (c2_daily_structure cexList 0 (by decide)).1

theorem debounceOut_burst (ins : List (Nat × String)) :
    ∀ (t : Nat) (v : String),
    List.Chain' (fun a b => b.1 < a.1 + 500) ins →
    ins.getLast? = some (t, v) →
    debounceOut ins = [v] := by
  induction ins with
  | nil =>
    intro t v _ hlast
    cases hlast
  | cons a ins ih =>
    intro t v hch hlast
    cases ins with
    | nil =>
      obtain ⟨ta, va⟩ := a
      have hav : va = v := by
        simp only [List.getLast?_singleton] at hlast
        exact congrArg Prod.snd (Option.some.inj hlast)
      rw [debounceOut, hav]
    | cons b ins' =>
      obtain ⟨ta, va⟩ := a
      obtain ⟨tb, vb⟩ := b
      have hab : tb < ta + 500 := (List.chain'_cons.mp hch).1
      rw [debounceOut, if_neg (by omega), List.nil_append]
      exact ih t v (List.chain'_cons.mp hch).2 (by simpa using hlast)

/-- C7: within the `citySearch$` pipeline, a burst of inputs each arriving
less than 500 ms after the previous one produces exactly one emission (one
fetch), carrying the burst's last value (when non-blank); and two
consecutive submissions of the same value — however spaced — still produce
exactly one emission: the repeat never triggers an additional fetch. -/
theorem c7_debounce :
    (∀ (ins : List (Nat × String)) (t : Nat) (v : String),
      List.Chain' (fun a b => b.1 < a.1 + 500) ins →
      ins.getLast? = some (t, v) →
      (jsTrim v).length > 0 →
      citySearchOut ins = [v]) ∧
    (∀ (t₀ t₁ : Nat) (q : String), (jsTrim q).length > 0 →
      citySearchOut [(t₀, q), (t₁, q)] = [q]) := by
  constructor
  · intro ins t v hch hlast hv
    rw [citySearchOut, debounceOut_burst ins t v hch hlast]
    simp [distinctUC, hv]
  · intro t₀ t₁ q hq
    rw [citySearchOut]
    by_cases hgap : t₀ + 500 ≤ t₁
    · simp [debounceOut, hgap, distinctUC, hq]
    · simp [debounceOut, hgap, distinctUC, hq]

/-- Witness for `c7_debounce`: the spec's burst "a", "ab", "abc" within
500 ms fetches once, for "abc"; an exact repeat after the quiet window still
fetches only once. -/
theorem c7_debounce_witness :
    citySearchOut [(0, "a"), (100, "ab"), (200, "abc")] = ["abc"] ∧
    citySearchOut [(0, "abc"), (1000, "abc")] = ["abc"] :=
  ⟨c7_debounce.1 [(0, "a"), (100, "ab"), (200, "abc")] 200 "abc"
      (by norm_num [List.chain'_cons]) (by decide) (by decide),
   c7_debounce.2 0 1000 "abc" (by decide)⟩

theorem step_loadingInv (s : SvcState) (e : SvcEvent)
    (h : s.loading = true → s.pendingCity.isSome ∨ s.pendingCoords.isSome) :
    (step s e).loading = true →
      (step s e).pendingCity.isSome ∨ (step s e).pendingCoords.isSome := by
  cases e with
  | accept ch =>
    cases ch <;> intro _ <;> simp [step, setPending]
  | weatherResp ch id r =>
    by_cases hp : pendingOf s ch = some id
    · cases r with
      | some w =>
        intro hl
        cases ch <;> simp [step, hp, setPending] at hl
      | none =>
        intro hl
        cases ch <;> simp [step, hp, setPending] at hl
    · intro hl
      rw [step, if_neg hp] at hl ⊢
      exact h hl
  | forecastResp id r =>
    by_cases hp : (s.pendingForecasts.filter (fun p => p.1 == id)) ≠ []
    · cases r with
      | some f =>
        by_cases hl : f.list ≠ [] <;>
          intro hld <;>
          rw [step, if_pos hp] at hld ⊢ <;>
          simp only [hl, if_pos, if_neg, ite_true, ite_false] at hld ⊢ <;>
          first
            | exact h hld
            | (simp only [ne_eq, not_not] at hl; simp [hl] at hld ⊢; exact h hld)
      | none =>
        intro hld
        rw [step, if_pos hp] at hld ⊢
        exact h hld
    · intro hld
      rw [step, if_neg hp] at hld ⊢
      exact h hld

theorem runEvents_loadingInv (evs : List SvcEvent) :
    ∀ s : SvcState,
    (s.loading = true → s.pendingCity.isSome ∨ s.pendingCoords.isSome) →
    ((runEvents s evs).loading = true →
      (runEvents s evs).pendingCity.isSome ∨ (runEvents s evs).pendingCoords.isSome) := by
  induction evs with
  | nil => intro s h; exact h
  | cons e evs ih =>
    intro s h
    exact ih (step s e) (step_loadingInv s e h)

/-- C8: `loading$` becomes true whenever a search is accepted; it becomes
false as soon as the accepted search's weather fetch settles — success or
failure alike (`finalize`), independently of any forecast fetch (forecast
responses never change the flag); and along every execution from the initial
state, once no weather fetch is outstanding the flag is false — it is never
left stuck at true. -/
theorem c8_loading :
    (∀ (s : SvcState) (ch : Channel), (step s (.accept ch)).loading = true) ∧
    (∀ (s : SvcState) (ch : Channel) (id : Nat) (r : Option WeatherData),
      pendingOf s ch = some id → (step s (.weatherResp ch id r)).loading = false) ∧
    (∀ (s : SvcState) (id : Nat) (r : Option ForecastData),
      (step s (.forecastResp id r)).loading = s.loading) ∧
    (∀ evs : List SvcEvent,
      (runEvents svcInit evs).pendingCity = none →
      (runEvents svcInit evs).pendingCoords = none →
      (runEvents svcInit evs).loading = false) := by
  refine ⟨?_, ?_, ?_, ?_⟩
  · intro s ch
    cases ch <;> simp [step, setPending]
  · intro s ch id r hp
    cases r with
    | some w => cases ch <;> simp [step, hp, setPending]
    | none => cases ch <;> simp [step, hp, setPending]
  · intro s id r
    by_cases hp : (s.pendingForecasts.filter (fun p => p.1 == id)) ≠ []
    · cases r with
      | some f =>
        by_cases hl : f.list ≠ []
        · rw [step, if_pos hp]
          simp [hl]
        · rw [step, if_pos hp]
          simp only [ne_eq, not_not] at hl
          simp [hl]
      | none => rw [step, if_pos hp]
    · rw [step, if_neg hp]
  · intro evs h1 h2
    have hinv := runEvents_loadingInv evs svcInit (by simp [svcInit])
    cases hb : (runEvents svcInit evs).loading with
    | false => rfl
    | true =>
      rcases hinv hb with h | h
      · rw [h1] at h
        cases h
      · rw [h2] at h
        cases h

/-- Witness for `c8_loading` at concrete states and traces. -/
theorem c8_loading_witness :
    (step svcInit (.accept .city)).loading = true ∧
    (step (step svcInit (.accept .city)) (.weatherResp .city 0 none)).loading = false ∧
    (step svcInit (.forecastResp 0 none)).loading = svcInit.loading ∧
    (runEvents svcInit [.accept .city, .weatherResp .city 0 (some wSampleZero)]).loading = false :=
  ⟨c8_loading.1 svcInit .city,
   c8_loading.2.1 (step svcInit (.accept .city)) .city 0 none (by decide),
   c8_loading.2.2.1 svcInit 0 none,
   c8_loading.2.2.2 [.accept .city, .weatherResp .city 0 (some wSampleZero)]
     (by decide) (by decide)⟩

/-- C1: on one search channel, issue search A, then search B before A's
response arrives (`switchMap` unsubscribes A's inner observable). Whatever
order the two weather responses then complete in, the exposed current
weather is B's snapshot and never A's; the only forecast fetch in flight is
the one triggered by B's snapshot (A's response, being discarded, triggers
none), and completing it makes B's forecast series current. -/
theorem c1_latest_search_wins (s₀ : SvcState) (ch : Channel) (wA wB : WeatherData)
    (fB : ForecastData) (hpf : s₀.pendingForecasts = []) (hfB : fB.list ≠ []) :
    ∀ t ∈ [[SvcEvent.weatherResp ch s₀.nextId (some wA),
            SvcEvent.weatherResp ch (s₀.nextId + 1) (some wB)],
           [SvcEvent.weatherResp ch (s₀.nextId + 1) (some wB),
            SvcEvent.weatherResp ch s₀.nextId (some wA)]],
      (runEvents s₀ ([.accept ch, .accept ch] ++ t)).weather = some wB ∧
      (wA ≠ wB → (runEvents s₀ ([.accept ch, .accept ch] ++ t)).weather ≠ some wA) ∧
      (runEvents s₀ ([.accept ch, .accept ch] ++ t)).pendingForecasts =
        [(s₀.nextId + 2, wB.coord)] ∧
      (runEvents s₀ (([.accept ch, .accept ch] ++ t) ++
        [.forecastResp (s₀.nextId + 2) (some fB)])).forecast = some fB := by
  have hne1 : ¬ (s₀.nextId + 1 = s₀.nextId) := by omega
  intro t ht
  rcases List.mem_cons.mp ht with rfl | ht'
  · cases ch <;>
      refine ⟨by simp [runEvents, step, setPending, pendingOf, hpf, hfB, hne1], ?_,
        by simp [runEvents, step, setPending, pendingOf, hpf, hfB, hne1],
        by simp [runEvents, step, setPending, pendingOf, hpf, hfB, hne1]⟩ <;>
      intro hAB <;>
      simp [runEvents, step, setPending, pendingOf, hpf, hfB, hne1] <;>
      exact fun hc => hAB hc.symm
  · rcases List.mem_cons.mp ht' with rfl | ht''
    · cases ch <;>
        refine ⟨by simp [runEvents, step, setPending, pendingOf, hpf, hfB, hne1], ?_,
          by simp [runEvents, step, setPending, pendingOf, hpf, hfB, hne1],
          by simp [runEvents, step, setPending, pendingOf, hpf, hfB, hne1]⟩ <;>
        intro hAB <;>
        simp [runEvents, step, setPending, pendingOf, hpf, hfB, hne1] <;>
        exact fun hc => hAB hc.symm
    · cases ht''

/-- Witness for `c1_latest_search_wins` from the initial state, with the
stale response arriving last. -/
theorem c1_latest_search_wins_witness :
    (runEvents svcInit ([.accept .city, .accept .city] ++
      [SvcEvent.weatherResp .city 0 (some wSampleTokyo),
       SvcEvent.weatherResp .city 1 (some wSampleZero)])).weather = some wSampleZero ∧
    (runEvents svcInit ([.accept .city, .accept .city] ++
      [SvcEvent.weatherResp .city 0 (some wSampleTokyo),
       SvcEvent.weatherResp .city 1 (some wSampleZero)])).weather ≠ some wSampleTokyo ∧
    (runEvents svcInit ([.accept .city, .accept .city] ++
      [SvcEvent.weatherResp .city 0 (some wSampleTokyo),
       SvcEvent.weatherResp .city 1 (some wSampleZero)])).pendingForecasts =
      [(2, wSampleZero.coord)] ∧
    (runEvents svcInit (([.accept .city, .accept .city] ++
      [SvcEvent.weatherResp .city 0 (some wSampleTokyo),
       SvcEvent.weatherResp .city 1 (some wSampleZero)]) ++
      [.forecastResp 2 (some fSample)])).forecast = some fSample := by
  have h := c1_latest_search_wins svcInit .city wSampleTokyo wSampleZero fSample rfl
    (by decide)
    [SvcEvent.weatherResp .city 0 (some wSampleTokyo),
     SvcEvent.weatherResp .city 1 (some wSampleZero)]
    (List.mem_cons_self _ _)
  exact ⟨h.1, h.2.1 (by decide), h.2.2.1, h.2.2.2⟩

/-- C6 counterexample: in the reactive service pipeline, a previously
current snapshot survives a failed weather fetch: errors become `of(null)`
and `filter(data !== null)` drops them, so `weatherSubject` is never
cleared — refuting "the exposed current WeatherSnapshot is cleared to
none". -/
theorem c6_weather_not_cleared_counterexample :
    (runEvents { svcInit with weather := some wSampleZero }
      [.accept .city, .weatherResp .city 0 none]).weather = some wSampleZero ∧
    (runEvents { svcInit with weather := some wSampleZero }
      [.accept .city, .weatherResp .city 0 none]).weather ≠ none := by
  decide

/-- C6 (amended): on failure of the weather fetch of an accepted search, the
reactive service pipeline retains the current snapshot and forecast
unchanged, starts no forecast fetch, and resets `loading` to false; in the
imperative component path (`getWeatherByCity`), the failure clears the
component's weather to none, surfaces an alert, and no forecast fetch is
attempted. -/
theorem c6_failure_handling (s : SvcState) (ch : Channel) (id : Nat)
    (comp : CompState) (nowMs tzOffsetMin : Int)
    (hp : pendingOf s ch = some id) (hcn : comp.cityName ≠ "") :
    ((step s (.weatherResp ch id none)).weather = s.weather ∧
     (step s (.weatherResp ch id none)).forecast = s.forecast ∧
     (step s (.weatherResp ch id none)).pendingForecasts = s.pendingForecasts ∧
     (step s (.weatherResp ch id none)).loading = false) ∧
    ((getWeatherByCityStep comp nowMs tzOffsetMin none).1.weather = none ∧
     (getWeatherByCityStep comp nowMs tzOffsetMin none).2 = false ∧
     (getWeatherByCityStep comp nowMs tzOffsetMin none).1.alerts =
       comp.alerts ++ [cityErrorAlert]) := by
  constructor
  · cases ch <;> simp [step, hp, setPending]
  · simp [getWeatherByCityStep, hcn]

/-- Witness for `c6_failure_handling` at a concrete in-flight search. -/
theorem c6_failure_handling_witness :
    ((step (step svcInit (.accept .city)) (.weatherResp .city 0 none)).weather =
      (step svcInit (.accept .city)).weather ∧
     (step (step svcInit (.accept .city)) (.weatherResp .city 0 none)).forecast =
      (step svcInit (.accept .city)).forecast ∧
     (step (step svcInit (.accept .city)) (.weatherResp .city 0 none)).pendingForecasts =
      (step svcInit (.accept .city)).pendingForecasts ∧
     (step (step svcInit (.accept .city)) (.weatherResp .city 0 none)).loading = false) ∧
    ((getWeatherByCityStep compW 0 60 none).1.weather = none ∧
     (getWeatherByCityStep compW 0 60 none).2 = false ∧
     (getWeatherByCityStep compW 0 60 none).1.alerts = compW.alerts ++ [cityErrorAlert]) :=
  c6_failure_handling (step svcInit (.accept .city)) .city 0 compW 0 60
    (by decide) (by decide)

end WeatherApp
